import Mathlib

/-!
Verification development for the DevClimb repository.

Part 1 models the frontend service code that is present in the repository
(`Frontend/services/roadmapApi.ts`, `Frontend/hooks/useRoadmapDB.ts`,
`Frontend/app/(tabs)/roadmap.tsx`) as executable Lean functions.

Part 2 models the generation-pipeline core described by the specification
(ProfileExtractor, GapAnalyzer, PlannerAgent, CriticAgent, ConstraintOracle,
Finalizer).  The Python implementation of that pipeline (`Backend/pipeline.py`)
is not part of the source tree, only its documentation is, so those
definitions are modelled from the specification text.

All definitions come first, followed by the lemmas and theorems.
-/

/-! ### Part 1a: role-name formatting (`roadmapApi.ts`) -/

/-- Character test matching the JavaScript regular-expression class `\s`
for the ASCII characters that can occur in role names. -/
def jsIsSpace (c : Char) : Bool :=
  c = ' ' || c = '\t' || c = '\n' || c = '\r' || c = '\x0b' || c = '\x0c'

/-- Replacement of every maximal run of whitespace by a single underscore,
modelling `replace(/\s+/g, '_')`.  The first argument records whether the
previous character was part of a whitespace run. -/
def collapseSpaces : Bool → List Char → List Char
  | _, [] => []
  | prevWs, c :: rest =>
    if jsIsSpace c then
      if prevWs then collapseSpaces true rest
      else '_' :: collapseSpaces true rest
    else c :: collapseSpaces false rest

/-- Model of `formatRoleForBackend` (roadmapApi.ts lines 141-146):
lower-case the display role, replace whitespace runs by `_`, replace `/`
by `_`. -/
def formatRoleForBackend (displayRole : String) : String :=
  let lowered := displayRole.data.map Char.toLower
  let underscored := collapseSpaces false lowered
  String.mk (underscored.map (fun c => if c = '/' then '_' else c))

/-- Split of a character list at every occurrence of a separator character,
matching the semantics of the JavaScript `split` with a one-character
separator (empty fields are kept). -/
def splitOnChar (sep : Char) : List Char → List (List Char)
  | [] => [[]]
  | c :: rest =>
    let r := splitOnChar sep rest
    if c = sep then [] :: r
    else
      match r with
      | [] => [[c]]
      | h :: t => (c :: h) :: t

/-- Capitalisation of the first character of a word, modelling
`word.charAt(0).toUpperCase() + word.slice(1)`. -/
def capitalizeFirst : List Char → List Char
  | [] => []
  | c :: rest => Char.toUpper c :: rest

/-- Model of `roadmapDbUtils.formatTargetRole` (roadmapApi.ts lines 282-287):
split on `_`, capitalise the first letter of every word, join with spaces. -/
def formatTargetRole (role : String) : String :=
  String.mk (List.intercalate [' '] ((splitOnChar '_' role.data).map capitalizeFirst))

/-- Model of the `ROLE_IDS` constant (roadmapApi.ts lines 75-89): the
catalog of supported display role names and their database ids. -/
def ROLE_IDS : List (String × Nat) :=
  [("Frontend Engineer", 1),
   ("Backend Engineer", 2),
   ("Full Stack Engineer", 3),
   ("Mobile Engineer", 4),
   ("Cloud DevOps Engineer", 5),
   ("Data Engineering Engineer", 6),
   ("ML/AI Engineer", 7),
   ("Cybersecurity Engineer", 8),
   ("QA Test Automation Engineer", 9),
   ("Game Development Engineer", 10),
   ("Embedded IoT Engineer", 11),
   ("AR/VR/XR Engineer", 12),
   ("Database Admin Engineer", 13)]

/-- Subset of the `ROLE_IDS` display names on which the
backend/display formatting round-trip is the identity: exactly the names
whose words consist of one capital letter followed by lower-case letters
and which contain no slash. -/
def roleRoundTripOk : List String :=
  ["Frontend Engineer",
   "Backend Engineer",
   "Full Stack Engineer",
   "Mobile Engineer",
   "Data Engineering Engineer",
   "Cybersecurity Engineer",
   "Game Development Engineer",
   "Database Admin Engineer"]

/-! ### Part 1b: job polling (`roadmapApi.pollJobUntilComplete`) -/

/-- Job status values returned by `GET /job/{jobId}`
(roadmapApi.ts lines 67-72). -/
inductive JobStatusKind where
  | inProgress
  | complete
  | failed
deriving DecidableEq

/-- Model of the `JobStatusResponse` payload; `roadmap_id` is optional in
the TypeScript interface. -/
structure JobStatusResponse where
  status : JobStatusKind
  roadmap_id : Option Nat
deriving DecidableEq

/-- Outcome of one iteration of the polling loop body: return a roadmap id,
continue polling, or catch an error inside the iteration (the `throw`s for
`failed` and for a missing `roadmap_id` happen inside the `try` block and
are caught by the same iteration's `catch`). -/
inductive PollStep where
  | ret (rid : Nat)
  | cont
  | caught (msg : String)

/-- Evaluation of one polling attempt (roadmapApi.ts lines 240-257).  A
present but zero `roadmap_id` is falsy in JavaScript, hence the `rid ≠ 0`
test. -/
def pollStepOf (r : Except String JobStatusResponse) : PollStep :=
  match r with
  | .error e => .caught e
  | .ok js =>
    if js.status = JobStatusKind.complete then
      match js.roadmap_id with
      | some rid =>
        if rid ≠ 0 then .ret rid
        else .caught "Job completed but no roadmap_id returned"
      | none => .caught "Job completed but no roadmap_id returned"
    else if js.status = JobStatusKind.failed then .caught "Roadmap generation failed"
    else .cont

/-- Core of the `while (attempts < maxAttempts)` loop of
`pollJobUntilComplete` (roadmapApi.ts lines 231-274).  The fuel argument
equals `maxAttempts - attempts`, so fuel `0` is exactly the loop exit.  A
caught error is re-thrown when `attempts >= maxAttempts - 1`, otherwise the
loop retries. -/
def pollGo (polls : Nat → Except String JobStatusResponse) (maxAttempts : Nat) :
    Nat → Nat → Except String Nat
  | _, 0 => .error "Roadmap generation timed out"
  | attempts, fuel + 1 =>
    match pollStepOf (polls attempts) with
    | .ret rid => .ok rid
    | .cont => pollGo polls maxAttempts (attempts + 1) fuel
    | .caught msg =>
      if maxAttempts - 1 ≤ attempts then .error msg
      else pollGo polls maxAttempts (attempts + 1) fuel

/-- Model of `roadmapApi.pollJobUntilComplete`.  The `polls` function gives
the result of the `i`-th call of `getJobStatus` (which can itself throw a
`RoadmapApiError`, modelled by the error message).  The TypeScript default
for `maxAttempts` is `150`. -/
def pollJobUntilComplete (polls : Nat → Except String JobStatusResponse)
    (maxAttempts : Nat) : Except String Nat :=
  pollGo polls maxAttempts 0 maxAttempts

/-- Concrete polling trace used to witness the polling theorem: the job is
in progress on the first attempt and completes with roadmap id 7 on the
second. -/
def witnessPolls : Nat → Except String JobStatusResponse :=
  fun i => if i = 1 then .ok ⟨JobStatusKind.complete, some 7⟩
           else .ok ⟨JobStatusKind.inProgress, none⟩

/-! ### Part 1c: optimistic task completion (`useRoadmapDB.markTaskComplete`) -/

/-- Model of the `DailyTaskDB` interface (roadmapApi.ts lines 17-23). -/
structure DailyTaskDB where
  task_id : Nat
  day_number : Nat
  task_description : String
  date : String
  completed : Bool
deriving DecidableEq

/-- Model of the `WeekDetailsDB` interface (roadmapApi.ts lines 25-32);
`completion_rate` is a JavaScript number, modelled by a rational. -/
structure WeekDetailsDB where
  week_index : Nat
  theme : String
  skills_focus : List String
  weekly_task : String
  daily_tasks : List DailyTaskDB
  completion_rate : ℚ
deriving DecidableEq

/-- Map setting the `completed` flag of every task whose `task_id` matches,
modelling the `.map` calls in `markTaskComplete`
(useRoadmapDB.ts lines 89-91 and 115-117). -/
def setTaskCompleted (tasks : List DailyTaskDB) (taskId : Nat) (c : Bool) :
    List DailyTaskDB :=
  tasks.map (fun t => if t.task_id = taskId then { t with completed := c } else t)

/-- Week state after one of the two `setCurrentWeek` calls in
`markTaskComplete`: the matching tasks get flag `c` and `completion_rate`
is recomputed from the updated task list. -/
def weekAfterUpdate (w : WeekDetailsDB) (taskId : Nat) (c : Bool) : WeekDetailsDB :=
  let updatedTasks := setTaskCompleted w.daily_tasks taskId c
  { w with
    daily_tasks := updatedTasks
    completion_rate :=
      ((updatedTasks.filter (fun t => t.completed)).length : ℚ) /
        ((updatedTasks.length : Nat) : ℚ) }

/-- Model of `useRoadmapDB.markTaskComplete` (useRoadmapDB.ts lines 86-131).
`callFails` is true when the awaited server interaction inside the `try`
block rejects.  The result is
(week state after the optimistic update, final week state, error re-thrown).
The revert closes over the stale `currentWeek` value of the render, so it
maps `completed := !completed` over the ORIGINAL task list rather than
restoring a saved copy. -/
def markTaskCompleteHook (currentWeek : Option WeekDetailsDB) (taskId : Nat)
    (completed : Bool) (callFails : Bool) :
    Option WeekDetailsDB × Option WeekDetailsDB × Bool :=
  let optimistic := currentWeek.map (fun w => weekAfterUpdate w taskId completed)
  if callFails then
    (optimistic, currentWeek.map (fun w => weekAfterUpdate w taskId (!completed)), true)
  else
    (optimistic, optimistic, false)

/-- Week whose single task is already completed; used to refute exact
restoration of the optimistic update. -/
def cexWeek : WeekDetailsDB :=
  { week_index := 1
    theme := "Week 1"
    skills_focus := []
    weekly_task := "t"
    daily_tasks := [{ task_id := 1, day_number := 1, task_description := "d",
                      date := "2025-01-01", completed := true }]
    completion_rate := ((1 : Nat) : ℚ) / ((1 : Nat) : ℚ) }

/-- Task list of the restoration witness week: task 1 incomplete, task 2
completed. -/
def witTasks : List DailyTaskDB :=
  [{ task_id := 1, day_number := 1, task_description := "d1",
     date := "2025-01-02", completed := false },
   { task_id := 2, day_number := 2, task_description := "d2",
     date := "2025-01-03", completed := true }]

/-- Week with one incomplete task and a consistent completion rate, used to
witness the amended restoration statement. -/
def witWeek : WeekDetailsDB :=
  { week_index := 2
    theme := "Week 2"
    skills_focus := ["React"]
    weekly_task := "build"
    daily_tasks := witTasks
    completion_rate :=
      ((witTasks.filter (fun t => t.completed)).length : ℚ) /
        ((witTasks.length : Nat) : ℚ) }

/-! ### Part 1d: roadmap visualization weeks (`roadmap.tsx`) -/

/-- Model of the week indices built by `CareerRoadmapMario`
(roadmap.tsx lines 92-98): `Array.from({length: duration_weeks}, (_, i) =>
({week_index: i + 1, ...}))`. -/
def roadmapVizWeekIndices (duration_weeks : Nat) : List Nat :=
  (List.range duration_weeks).map (fun i => i + 1)

/-! ### Part 2: the generation pipeline, modelled from the specification.

The Python pipeline (`Backend/pipeline.py`) is absent from the source tree;
every definition in this part is modelled from the corresponding section of
the specification. -/

/-- Modelled from the spec: the learning-style enumeration of `UserProfile`
in the data model of the missing pipeline code. -/
inductive LearningStyle where
  | visual
  | handsOn
  | reading
  | mixed
deriving DecidableEq

/-- Modelled from the spec: `UserProfile` of the missing pipeline code
(user id, years of experience, skill proficiencies, weekly time budget,
learning style). -/
structure UserProfile where
  user_id : String
  years_total : Nat
  skills : List (String × Nat)
  time_budget_hours_per_week : Nat
  learning_style : LearningStyle
deriving DecidableEq

/-- Modelled from the spec: a read-only `RoleDefinition` entry of the
RoleCatalog consumed by the missing pipeline code. -/
structure RoleDefinition where
  name : String
  skills : List (String × Nat)
  prerequisites : List String
  assessments : List String
deriving DecidableEq

/-- Modelled from the spec: a `Gap` produced by the missing GapAnalyzer. -/
structure Gap where
  skill : String
  current_level : Nat
  target_level : Nat
  estimated_hours : Nat
deriving DecidableEq

/-- Modelled from the spec: a whitelisted `Resource` catalog entry. -/
structure Resource where
  id : String
  title : String
  url : String
  rtype : String
  skills : List String
  difficulty : Nat
  estimated_hours : Nat
deriving DecidableEq

/-- Modelled from the spec: a `DailyTask` of the missing pipeline code,
with an optional whitelisted resource reference. -/
structure DailyTask where
  day_number : Nat
  description : String
  verification_method : String
  estimated_minutes : Nat
  resource_id : Option String
deriving DecidableEq

/-- Modelled from the spec: a `WeeklyPlan` of the missing pipeline code. -/
structure WeeklyPlan where
  week_index : Nat
  theme : String
  goals : List String
  deliverable : String
  daily : List DailyTask
deriving DecidableEq

/-- Modelled from the spec: a checkpoint milestone with its reflection
prompt. -/
structure Checkpoint where
  week : Nat
  reflection_prompt : String
deriving DecidableEq

/-- Modelled from the spec: a `LearningPlan` of the missing pipeline
code. -/
structure LearningPlan where
  role : String
  weeks : List WeeklyPlan
  coaching_tips : List String
  checkpoints : List Checkpoint
deriving DecidableEq

/-- Modelled from the spec: the reasons of a `GenerationError` raised by
the missing GenerativeClient. -/
inductive GenReason where
  | schema_invalid
  | upstream_failure
  | timeout
deriving DecidableEq

/-- Modelled from the spec: `GenerationError` of the missing pipeline
code. -/
structure GenerationError where
  reason : GenReason
deriving DecidableEq

/-- Modelled from the spec: `ConstraintViolation{week_index, rule}` of the
missing ConstraintOracle. -/
structure ConstraintViolation where
  week_index : Nat
  rule : String
deriving DecidableEq

/-- Modelled from the spec: the terminal failure kinds of the missing
pipeline (`GenerationError`, `ConstraintViolation`, `CatalogLookupError`). -/
inductive PipelineError where
  | generation (e : GenerationError)
  | constraint (v : ConstraintViolation)
  | catalog (name : String)
deriving DecidableEq

/-- Modelled from the spec: the structural schema contract of a
`LearningPlan` (exactly 12 weeks whose `week_index` values cover 1..12),
enforced on every schema-checked generative plan result of the missing
pipeline code. -/
def planSchemaValid (p : LearningPlan) : Bool :=
  (p.weeks.length == 12) &&
    (List.range' 1 12).all (fun i => p.weeks.any (fun w => w.week_index == i))

/-- Modelled from the spec: the schema enforcement a generative plan
response passes through in the missing GenerativeClient; a structurally
invalid response becomes a `GenerationError` with reason
`schema_invalid`. -/
def genPlanCall (raw : Except GenerationError LearningPlan) :
    Except GenerationError LearningPlan :=
  match raw with
  | .error e => .error e
  | .ok p =>
    if planSchemaValid p then .ok p
    else .error { reason := GenReason.schema_invalid }

/-! #### GapAnalyzer (spec section 4.3) -/

/-- Modelled from the spec: current proficiency of a skill in a profile,
`0` when the skill is absent. -/
def currentLevel (profile : UserProfile) (skill : String) : Nat :=
  match profile.skills.lookup skill with
  | some v => v
  | none => 0

/-- Proficiency delta of a gap. -/
def gapDelta (g : Gap) : Nat := g.target_level - g.current_level

/-- Modelled from the spec: position of a skill in the role's ordered
prerequisite list; skills not listed sort after all listed ones (the index
equals the list length for absent skills). -/
def prereqPos (role : RoleDefinition) (s : String) : Nat :=
  role.prerequisites.indexOf s

/-- Kernel-computable lexical order on character lists, by code point. -/
def charListLe : List Char → List Char → Bool
  | [], _ => true
  | _ :: _, [] => false
  | a :: as, b :: bs =>
    if a.toNat < b.toNat then true
    else if b.toNat < a.toNat then false
    else charListLe as bs

/-- Lexical order on strings, by code point. -/
def strLe (a b : String) : Bool := charListLe a.data b.data

/-- Modelled from the spec: the priority order of Gaps in the missing
GapAnalyzer — earlier prerequisite position first, then larger delta, then
lexical skill name. -/
def gapLE (role : RoleDefinition) (a b : Gap) : Prop :=
  prereqPos role a.skill < prereqPos role b.skill ∨
    (prereqPos role a.skill = prereqPos role b.skill ∧
      (gapDelta b < gapDelta a ∨
        (gapDelta a = gapDelta b ∧ strLe a.skill b.skill = true)))

instance gapLEDecidable (role : RoleDefinition) : DecidableRel (gapLE role) :=
  fun a b => by unfold gapLE; infer_instance

/-- Modelled from the spec: construction of the Gap for one required skill,
skipping skills with a non-positive delta; `hpp` is the configurable
hours-per-proficiency-point constant. -/
def mkGap (hpp : Nat) (profile : UserProfile) (st : String × Nat) : Option Gap :=
  let cur := currentLevel profile st.1
  if cur < st.2 then
    some { skill := st.1, current_level := cur, target_level := st.2,
           estimated_hours := hpp * (st.2 - cur) }
  else none

/-- Modelled from the spec: `GapAnalyzer.analyze(profile, role)` of the
missing pipeline code — one Gap per required skill with positive delta,
sorted by the priority order. -/
def analyze (hpp : Nat) (profile : UserProfile) (role : RoleDefinition) : List Gap :=
  List.insertionSort (gapLE role) (role.skills.filterMap (mkGap hpp profile))

/-! #### CriticAgent (spec section 4.5) -/

/-- Modelled from the spec: the five criterion scores of the missing
CriticAgent. -/
structure CriticScores where
  coverage : Nat
  feasibility : Nat
  measurability : Nat
  portfolio_impact : Nat
  learning_style_fit : Nat
deriving DecidableEq

/-- Modelled from the spec: the unweighted total score of a candidate. -/
def totalScore (s : CriticScores) : Nat :=
  s.coverage + s.feasibility + s.measurability + s.portfolio_impact +
    s.learning_style_fit

/-- Modelled from the spec: strict preference between score vectors —
higher total first, ties broken by feasibility, then coverage; any
remaining tie is broken by generation order in the selection function. -/
def criticLt (a b : CriticScores) : Prop :=
  totalScore a < totalScore b ∨
    (totalScore a = totalScore b ∧
      (a.feasibility < b.feasibility ∨
        (a.feasibility = b.feasibility ∧ a.coverage < b.coverage)))

instance criticLtDecidable : DecidableRel criticLt :=
  fun a b => by unfold criticLt; infer_instance

/-- Modelled from the spec: `CriticAgent.select(candidates, profile)` of
the missing pipeline code — the earliest-generated candidate among those
maximal for the preference order; the current best is replaced only by a
strictly preferred later candidate. -/
def criticSelect {α : Type} (score : α → CriticScores) : List α → Option α
  | [] => none
  | a :: rest =>
    match criticSelect score rest with
    | none => some a
    | some b => if criticLt (score a) (score b) then some b else some a

/-- Total minutes of a task list. -/
def tasksMinutes (ts : List DailyTask) : Nat :=
  (ts.map (fun t => t.estimated_minutes)).sum

/-- Total minutes of a weekly plan. -/
def weekMinutes (w : WeeklyPlan) : Nat := tasksMinutes w.daily

/-- Modelled from the spec: the deterministic five-criteria scoring of the
missing CriticAgent.  The precise numeric weights are an open question of
the specification (section 9), so simple deterministic defaults are used:
coverage and measurability as scaled fractions, feasibility from the worst
weekly load against the budget, portfolio impact from deliverables matching
role assessments, and a constant learning-style fit. -/
def criticScore (profile : UserProfile) (gaps : List Gap) (role : RoleDefinition)
    (plan : LearningPlan) : CriticScores :=
  let tasks := (plan.weeks.map (fun w => w.daily)).flatten
  let addressed :=
    (gaps.filter (fun g => plan.weeks.any (fun w => w.goals.contains g.skill))).length
  let verified :=
    (tasks.filter (fun t => t.verification_method != "")).length
  let worst := (plan.weeks.map weekMinutes).foldr max 0
  let budget := profile.time_budget_hours_per_week * 60
  { coverage := if gaps.length = 0 then 5 else 5 * addressed / gaps.length
    feasibility := if worst ≤ budget then 5 else if worst ≤ budget + budget / 2 then 3 else 1
    measurability := if tasks.length = 0 then 0 else 5 * verified / tasks.length
    portfolio_impact :=
      if plan.weeks.any (fun w => role.assessments.contains w.deliverable) then 5 else 2
    learning_style_fit := 3 }

/-! #### PlannerAgent (spec section 4.4) -/

/-- Successful payload of a schema-checked generation outcome. -/
def succOf (r : Except GenerationError LearningPlan) : Option LearningPlan :=
  match r with
  | .ok p => some p
  | .error _ => none

/-- Modelled from the spec: the candidates that survive schema enforcement
among the `n` independent generation outcomes of the missing
PlannerAgent. -/
def successes (raws : List (Except GenerationError LearningPlan)) : List LearningPlan :=
  (raws.map genPlanCall).filterMap succOf

/-- First generation error among schema-checked outcomes, used as the
propagated error when every candidate fails. -/
def firstGenFailure (results : List (Except GenerationError LearningPlan)) :
    GenerationError :=
  match results.filterMap (fun r =>
      match r with
      | .error e => some e
      | .ok _ => none) with
  | e :: _ => e
  | [] => { reason := GenReason.upstream_failure }

/-- Modelled from the spec: `PlannerAgent.generate_candidates` of the
missing pipeline code — proceed with every successful candidate (minimum
one); if all generations fail, fail with a propagated `GenerationError`. -/
def generate_candidates (raws : List (Except GenerationError LearningPlan)) :
    Except GenerationError (List LearningPlan) :=
  if successes raws = [] then .error (firstGenFailure (raws.map genPlanCall))
  else .ok (successes raws)

/-! #### ConstraintOracle (spec section 4.6) -/

/-- Modelled from the spec: rule (a) of the missing ConstraintOracle — a
daily task is acceptable when its resource reference, if any, is in the
whitelist. -/
def taskWhitelisted (resources : List Resource) (t : DailyTask) : Bool :=
  match t.resource_id with
  | none => true
  | some rid => resources.any (fun r => r.id == rid)

/-- Long-session test: a session longer than 120 minutes. -/
def isLongTask (t : DailyTask) : Bool := decide (120 < t.estimated_minutes)

/-- Modelled from the spec: rule (b) capping — walk the week keeping the
first two long sessions, capping every further long session at 120 minutes
and accumulating the removed excess minutes.  Returns the capped list and
the excess. -/
def capLongs : Nat → List DailyTask → List DailyTask × Nat
  | _, [] => ([], 0)
  | seen, t :: rest =>
    if 120 < t.estimated_minutes then
      if seen < 2 then
        let r := capLongs (seen + 1) rest
        (t :: r.1, r.2)
      else
        let r := capLongs seen rest
        ({ t with estimated_minutes := 120 } :: r.1, r.2 + (t.estimated_minutes - 120))
    else
      let r := capLongs seen rest
      (t :: r.1, r.2)

/-- Modelled from the spec: rule (b) redistribution — pour the excess
minutes into existing non-long sessions, filling each up to the 120-minute
threshold; the leftover that cannot be absorbed is returned. -/
def absorbExcess : Nat → List DailyTask → List DailyTask × Nat
  | e, [] => ([], e)
  | e, t :: rest =>
    if t.estimated_minutes ≤ 120 then
      let add := min e (120 - t.estimated_minutes)
      let r := absorbExcess (e - add) rest
      ({ t with estimated_minutes := t.estimated_minutes + add } :: r.1, r.2)
    else
      let r := absorbExcess e rest
      (t :: r.1, r.2)

/-- Modelled from the spec: rule (c) trimming — lowest-priority (latest)
tasks are dropped first, i.e. the week is cut at the first task that no
longer fits the remaining budget. -/
def takeBudget : Nat → List DailyTask → List DailyTask
  | _, [] => []
  | budget, t :: rest =>
    if t.estimated_minutes ≤ budget then t :: takeBudget (budget - t.estimated_minutes) rest
    else []

/-- Modelled from the spec: the per-week state machine of the missing
ConstraintOracle — (a) drop non-whitelisted tasks, (b) cap long sessions at
two per week by redistribution (non-compliant when impossible), (c) trim to
the weekly minute budget (failing when nothing fits), (d) reject tasks
without a verification method.  Repairs are recorded in a log. -/
def enforceWeek (resources : List Resource) (budgetMinutes : Nat) (w : WeeklyPlan) :
    Except ConstraintViolation (WeeklyPlan × List String) :=
  let kept := w.daily.filter (taskWhitelisted resources)
  let capped := capLongs 0 kept
  let redistributed := absorbExcess capped.2 capped.1
  if redistributed.2 ≠ 0 then
    .error { week_index := w.week_index, rule := "long_sessions" }
  else
    let trimmed := takeBudget budgetMinutes redistributed.1
    if trimmed.isEmpty && !redistributed.1.isEmpty then
      .error { week_index := w.week_index, rule := "time_budget" }
    else if trimmed.any (fun t => t.verification_method == "") then
      .error { week_index := w.week_index, rule := "verification_method" }
    else
      .ok ({ w with daily := trimmed },
        (if kept.length < w.daily.length then ["dropped_non_whitelisted"] else []) ++
          (if capped.2 ≠ 0 then ["redistributed_long_sessions"] else []) ++
            (if trimmed.length < redistributed.1.length then ["trimmed_over_budget"] else []))

/-- Modelled from the spec: week-by-week enforcement, propagating the first
`ConstraintViolation` and concatenating the repair logs. -/
def enforceWeeks (resources : List Resource) (budgetMinutes : Nat) :
    List WeeklyPlan → Except ConstraintViolation (List WeeklyPlan × List String)
  | [] => .ok ([], [])
  | w :: rest =>
    match enforceWeek resources budgetMinutes w with
    | .error v => .error v
    | .ok (w', log) =>
      match enforceWeeks resources budgetMinutes rest with
      | .error v => .error v
      | .ok (ws, logs) => .ok (w' :: ws, log ++ logs)

/-- Modelled from the spec: `ConstraintOracle.enforce(plan, profile)` of
the missing pipeline code, returning the repaired plan together with the
repair log. -/
def enforce (resources : List Resource) (profile : UserProfile) (plan : LearningPlan) :
    Except ConstraintViolation (LearningPlan × List String) :=
  match enforceWeeks resources (profile.time_budget_hours_per_week * 60) plan.weeks with
  | .error v => .error v
  | .ok (ws, logs) => .ok ({ plan with weeks := ws }, logs)

/-! #### Finalizer (spec section 4.7) -/

/-- Modelled from the spec: the structural fields diffed by the missing
Finalizer — week count, task descriptions, and resource references. -/
def structuralFields (p : LearningPlan) :
    Nat × List (List String) × List (List (Option String)) :=
  (p.weeks.length,
   p.weeks.map (fun w => w.daily.map (fun t => t.description)),
   p.weeks.map (fun w => w.daily.map (fun t => t.resource_id)))

/-- Plan with the empty default coaching text. -/
def emptyCoaching (p : LearningPlan) : LearningPlan := { p with coaching_tips := [] }

/-- Modelled from the spec: the drift check of the missing Finalizer — the
generative output is kept when its structural fields match the input plan,
otherwise it is discarded and the unmodified input plan with empty default
coaching text is returned. -/
def finalizeChoice (plan genOut : LearningPlan) : LearningPlan :=
  if structuralFields genOut = structuralFields plan then genOut
  else emptyCoaching plan

/-- Modelled from the spec: `Finalizer.personalize(plan, profile)` of the
missing pipeline code — one schema-enforced generative call whose result is
diffed against the input plan; a `GenerationError` of the call surfaces to
the caller. -/
def personalize (plan : LearningPlan) (raw : Except GenerationError LearningPlan) :
    Except GenerationError LearningPlan :=
  match genPlanCall raw with
  | .error e => .error e
  | .ok genOut => .ok (finalizeChoice plan genOut)

/-! #### ProfileExtractor and the pipeline entrypoint (spec sections 4.2, 6) -/

/-- Proficiency clamp to the interval `[1, 5]`. -/
def clampSkill (v : Nat) : Nat := min 5 (max 1 v)

/-- Modelled from the spec: clamping of extracted proficiency values. -/
def clampProfile (p : UserProfile) : UserProfile :=
  { p with skills := p.skills.map (fun sv => (sv.1, clampSkill sv.2)) }

/-- Skill dictionary of the deterministic fallback extractor. -/
def fallbackSkillDict : List String :=
  ["JavaScript", "TypeScript", "React", "Python", "SQL", "HTML", "CSS",
   "Docker", "AWS", "Node"]

/-- Modelled from the spec: the deterministic heuristic fallback extractor
of the missing ProfileExtractor — keyword matching of the résumé text
against a skill dictionary, producing a conservative profile. -/
def fallbackExtract (resume_text : String) : UserProfile :=
  { user_id := "fallback"
    years_total := 0
    skills :=
      (((splitOnChar ' ' resume_text.data).map String.mk).filter
          (fun w => fallbackSkillDict.contains w)).dedup.map (fun w => (w, 1))
    time_budget_hours_per_week := 5
    learning_style := LearningStyle.mixed }

/-- Modelled from the spec: `ProfileExtractor.extract(resume_text)` of the
missing pipeline code — the schema-enforced generative extraction, with the
deterministic fallback on `GenerationError` (generation failure is never
fatal at this stage). -/
def profileExtract (resume_text : String)
    (raw : Except GenerationError UserProfile) : UserProfile :=
  match raw with
  | .ok p => clampProfile p
  | .error _ => fallbackExtract resume_text

/-- Modelled from the spec: the configurable hours-per-proficiency-point
constant of the GapAnalyzer. -/
def gapHoursPerPoint : Nat := 4

/-- Modelled from the spec: the generative environment of one pipeline run —
the outcome of the profile-extraction call, of the `n` planner candidate
calls, and of the finalizer call. -/
structure GenEnv where
  profileRaw : Except GenerationError UserProfile
  plannerRaws : List (Except GenerationError LearningPlan)
  finalizerRaw : Except GenerationError LearningPlan

/-- Modelled from the spec: the pipeline entrypoint
`run(resume_text, target_role) -> LearningPlan` of the missing pipeline
code — résumé extraction, gap analysis, candidate generation, critic
selection, constraint enforcement and final personalization, returning the
finalized plan or the first terminal failure. -/
def pipelineRun (catalog : List (String × RoleDefinition)) (resources : List Resource)
    (env : GenEnv) (resume_text target_role : String) :
    Except PipelineError LearningPlan :=
  match catalog.lookup target_role with
  | none => .error (.catalog target_role)
  | some role =>
    let profile := profileExtract resume_text env.profileRaw
    let gaps := analyze gapHoursPerPoint profile role
    match generate_candidates env.plannerRaws with
    | .error e => .error (.generation e)
    | .ok cands =>
      match criticSelect (criticScore profile gaps role) cands with
      | none => .error (.generation { reason := GenReason.upstream_failure })
      | some best =>
        match enforce resources profile best with
        | .error v => .error (.constraint v)
        | .ok (repaired, _log) =>
          match personalize repaired env.finalizerRaw with
          | .error e => .error (.generation e)
          | .ok finalPlan => .ok finalPlan

/-! #### Concrete data used by witnesses and counterexamples -/

/-- Compliant daily task used to build concrete plans. -/
def wTask (d : Nat) : DailyTask :=
  { day_number := d, description := "task", verification_method := "quiz",
    estimated_minutes := 30, resource_id := none }

/-- Compliant weekly plan with five daily tasks. -/
def wWeek (i : Nat) : WeeklyPlan :=
  { week_index := i, theme := "theme", goals := ["JavaScript"],
    deliverable := "demo", daily := (List.range' 1 5).map wTask }

/-- Schema-valid, constraint-compliant twelve-week plan. -/
def wPlan : LearningPlan :=
  { role := "frontend_engineer", weeks := (List.range' 1 12).map wWeek,
    coaching_tips := [], checkpoints := [] }

/-- The same plan annotated with coaching tips and checkpoint reflection
prompts, as a well-behaved finalizer output. -/
def wPlanCoached : LearningPlan :=
  { wPlan with
    coaching_tips := ["keep going"]
    checkpoints := [{ week := 4, reflection_prompt := "reflect" },
                    { week := 8, reflection_prompt := "reflect" },
                    { week := 12, reflection_prompt := "reflect" }] }

/-- Plan that agrees with `wPlan` on every diffed structural field but has
a different first-week session length. -/
def wPlanDriftMinutes : LearningPlan :=
  { wPlan with
    weeks :=
      { wWeek 1 with
        daily := (List.range' 1 5).map (fun d => { wTask d with estimated_minutes := 90 }) } ::
        (List.range' 2 11).map wWeek }

/-- Plan whose first-week task descriptions differ from `wPlan`, i.e. a
structurally drifted finalizer output. -/
def wPlanDriftText : LearningPlan :=
  { wPlan with
    weeks :=
      { wWeek 1 with
        daily := (List.range' 1 5).map (fun d => { wTask d with description := "other" }) } ::
        (List.range' 2 11).map wWeek }

/-- Concrete profile for pipeline witnesses. -/
def wProfile : UserProfile :=
  { user_id := "u1", years_total := 2, skills := [("JavaScript", 3)],
    time_budget_hours_per_week := 10, learning_style := LearningStyle.mixed }

/-- Concrete role entry for pipeline witnesses. -/
def wRole : RoleDefinition :=
  { name := "frontend_engineer", skills := [("JavaScript", 5), ("React", 4)],
    prerequisites := ["JavaScript", "React"], assessments := ["demo"] }

/-- Concrete role catalog for pipeline witnesses. -/
def wCatalog : List (String × RoleDefinition) := [("frontend_engineer", wRole)]

/-- Concrete resource whitelist for pipeline witnesses. -/
def wResources : List Resource :=
  [{ id := "react_docs", title := "React Documentation", url := "https://react.dev/",
     rtype := "documentation", skills := ["React"], difficulty := 3,
     estimated_hours := 20 }]

/-- Generative environment in which every stage succeeds. -/
def wEnv : GenEnv :=
  { profileRaw := .ok wProfile
    plannerRaws := [.ok wPlan]
    finalizerRaw := .ok wPlanCoached }

/-- Planner outcomes of the partial-failure scenario: three candidate
generations of which exactly one succeeds. -/
def wRawsOneOfThree : List (Except GenerationError LearningPlan) :=
  [.error { reason := GenReason.timeout }, .ok wPlan,
   .error { reason := GenReason.upstream_failure }]

/-- Planner outcomes in which all three candidate generations fail. -/
def wRawsAllFail : List (Except GenerationError LearningPlan) :=
  [.error { reason := GenReason.timeout },
   .error { reason := GenReason.upstream_failure },
   .error { reason := GenReason.schema_invalid }]

/-- Profile of the gap-analysis scenario from the specification:
`JavaScript=3, React=2`. -/
def scProfile : UserProfile :=
  { user_id := "sc", years_total := 2, skills := [("JavaScript", 3), ("React", 2)],
    time_budget_hours_per_week := 8, learning_style := LearningStyle.mixed }

/-- Role of the gap-analysis scenario from the specification:
`JavaScript=5, React=4, HTML=4` with prerequisite order JavaScript, React,
HTML. -/
def scRole : RoleDefinition :=
  { name := "Frontend Developer",
    skills := [("JavaScript", 5), ("React", 4), ("HTML", 4)],
    prerequisites := ["JavaScript", "React", "HTML"], assessments := [] }

/-- Candidate scores used by the critic-selection witness. -/
def wScoreFn (n : Nat) : CriticScores :=
  if n = 0 then { coverage := 1, feasibility := 1, measurability := 1,
                  portfolio_impact := 1, learning_style_fit := 1 }
  else { coverage := 5, feasibility := 2, measurability := 1,
         portfolio_impact := 1, learning_style_fit := 0 }

/-- Decidable equality of `Except` results, used to evaluate concrete
pipeline outcomes. -/
instance exceptDecidableEq {e a : Type} [DecidableEq e] [DecidableEq a] :
    DecidableEq (Except e a) := fun x y =>
  match x, y with
  | .error e1, .error e2 =>
    if h : e1 = e2 then isTrue (by rw [h])
    else isFalse (fun hc => h (Except.error.inj hc))
  | .error _, .ok _ => isFalse (fun hc => Except.noConfusion hc)
  | .ok _, .error _ => isFalse (fun hc => Except.noConfusion hc)
  | .ok a1, .ok a2 =>
    if h : a1 = a2 then isTrue (by rw [h])
    else isFalse (fun hc => h (Except.ok.inj hc))

/-! ## Lemmas and theorems -/

/-! ### C10: role-name formatting round-trip -/

/-- C10 counterexample: `"Cloud DevOps Engineer"` is a `ROLE_IDS` key, but
formatting it for the backend and back yields `"Cloud Devops Engineer"`,
so the round-trip is not the identity on the role catalog. -/
theorem c10_role_roundtrip_cex :
    ("Cloud DevOps Engineer", 5) ∈ ROLE_IDS ∧
    formatTargetRole (formatRoleForBackend "Cloud DevOps Engineer") =
      "Cloud Devops Engineer" ∧
    formatTargetRole (formatRoleForBackend "Cloud DevOps Engineer") ≠
      "Cloud DevOps Engineer" := by
  decide

/-- C10 (amended): for a display name in the `ROLE_IDS` catalog, the
round-trip `formatTargetRole (formatRoleForBackend name)` is the identity
exactly when the name is one of the eight whose words are a capital letter
followed by lower-case letters with no slash (`roleRoundTripOk`); it is not
the identity on the five names with interior capitals or slashes. -/
theorem c10_role_roundtrip :
    ∀ r ∈ ROLE_IDS.map Prod.fst,
      (formatTargetRole (formatRoleForBackend r) = r ↔ r ∈ roleRoundTripOk) := by
  decide

/-- Witness for the amended C10 round-trip statement at the catalog name
`"Frontend Engineer"`. -/
theorem c10_role_roundtrip_witness :
    formatTargetRole (formatRoleForBackend "Frontend Engineer") = "Frontend Engineer" ↔
      "Frontend Engineer" ∈ roleRoundTripOk :=
  c10_role_roundtrip "Frontend Engineer" (by decide)

/-! ### C8: termination and result characterisation of the polling loop -/

lemma pollGo_ok_elim (polls : Nat → Except String JobStatusResponse) (M : Nat) :
    ∀ fuel attempts rid, pollGo polls M attempts fuel = .ok rid →
      ∃ i, attempts ≤ i ∧ i < attempts + fuel ∧ pollStepOf (polls i) = PollStep.ret rid := by
  intro fuel
  induction fuel with
  | zero => intro a rid h; simp [pollGo] at h
  | succ f ih =>
    intro a rid h
    simp only [pollGo] at h
    cases hs : pollStepOf (polls a) with
    | ret r =>
      simp only [hs, Except.ok.injEq] at h
      exact ⟨a, le_refl a, by omega, by rw [hs, h]⟩
    | cont =>
      simp only [hs] at h
      obtain ⟨i, h1, h2, h3⟩ := ih (a + 1) rid h
      exact ⟨i, by omega, by omega, h3⟩
    | caught m =>
      simp only [hs] at h
      split at h
      · simp at h
      · obtain ⟨i, h1, h2, h3⟩ := ih (a + 1) rid h
        exact ⟨i, by omega, by omega, h3⟩

lemma pollGo_error_elim (polls : Nat → Except String JobStatusResponse) (M : Nat) :
    ∀ fuel attempts msg, pollGo polls M attempts fuel = .error msg →
      msg = "Roadmap generation timed out" ∨
        ∃ i, attempts ≤ i ∧ i < attempts + fuel ∧
          pollStepOf (polls i) = PollStep.caught msg := by
  intro fuel
  induction fuel with
  | zero =>
    intro a msg h
    simp only [pollGo, Except.error.injEq] at h
    exact Or.inl h.symm
  | succ f ih =>
    intro a msg h
    simp only [pollGo] at h
    cases hs : pollStepOf (polls a) with
    | ret r =>
      simp only [hs] at h
      exact Except.noConfusion h
    | cont =>
      simp only [hs] at h
      rcases ih (a + 1) msg h with h1 | ⟨i, h1, h2, h3⟩
      · exact Or.inl h1
      · exact Or.inr ⟨i, by omega, by omega, h3⟩
    | caught m =>
      simp only [hs] at h
      split at h
      · simp only [Except.error.injEq] at h
        exact Or.inr ⟨a, le_refl a, by omega, by rw [hs, h]⟩
      · rcases ih (a + 1) msg h with h1 | ⟨i, h1, h2, h3⟩
        · exact Or.inl h1
        · exact Or.inr ⟨i, by omega, by omega, h3⟩

lemma pollGo_congr (polls polls2 : Nat → Except String JobStatusResponse) (M : Nat) :
    ∀ fuel attempts, (∀ i, attempts ≤ i → i < attempts + fuel → polls i = polls2 i) →
      pollGo polls M attempts fuel = pollGo polls2 M attempts fuel := by
  intro fuel
  induction fuel with
  | zero => intro a _; simp [pollGo]
  | succ f ih =>
    intro a hagree
    have h0 : polls a = polls2 a := hagree a (le_refl a) (by omega)
    have hrest : ∀ i, a + 1 ≤ i → i < a + 1 + f → polls i = polls2 i :=
      fun i hi1 hi2 => hagree i (by omega) (by omega)
    simp only [pollGo, h0]
    cases pollStepOf (polls2 a) with
    | ret r => rfl
    | cont => exact ih (a + 1) hrest
    | caught m =>
      dsimp only
      by_cases hM : M - 1 ≤ a
      · rw [if_pos hM, if_pos hM]
      · rw [if_neg hM, if_neg hM]
        exact ih (a + 1) hrest

lemma pollStepOf_ret_elim (r : Except String JobStatusResponse) (rid : Nat)
    (h : pollStepOf r = PollStep.ret rid) :
    ∃ js, r = .ok js ∧ js.status = JobStatusKind.complete ∧
      js.roadmap_id = some rid ∧ rid ≠ 0 := by
  cases r with
  | error e => simp [pollStepOf] at h
  | ok js =>
    refine ⟨js, rfl, ?_⟩
    simp only [pollStepOf] at h
    by_cases h1 : js.status = JobStatusKind.complete
    · rw [if_pos h1] at h
      cases h2 : js.roadmap_id with
      | none =>
        simp only [h2] at h
        exact PollStep.noConfusion h
      | some n =>
        simp only [h2] at h
        by_cases h3 : n ≠ 0
        · rw [if_pos h3] at h
          simp only [PollStep.ret.injEq] at h
          exact ⟨h1, by rw [h], by omega⟩
        · rw [if_neg h3] at h
          simp at h
    · rw [if_neg h1] at h
      by_cases h4 : js.status = JobStatusKind.failed
      · rw [if_pos h4] at h
        simp at h
      · rw [if_neg h4] at h
        simp at h

lemma pollStepOf_caught_elim (r : Except String JobStatusResponse) (msg : String)
    (h : pollStepOf r = PollStep.caught msg) :
    msg = "Job completed but no roadmap_id returned" ∨
      msg = "Roadmap generation failed" ∨ r = .error msg := by
  cases r with
  | error e =>
    simp only [pollStepOf, PollStep.caught.injEq] at h
    exact Or.inr (Or.inr (by rw [h]))
  | ok js =>
    simp only [pollStepOf] at h
    by_cases h1 : js.status = JobStatusKind.complete
    · rw [if_pos h1] at h
      cases h2 : js.roadmap_id with
      | none =>
        simp only [h2, PollStep.caught.injEq] at h
        exact Or.inl h.symm
      | some n =>
        simp only [h2] at h
        by_cases h3 : n ≠ 0
        · rw [if_pos h3] at h
          simp at h
        · rw [if_neg h3] at h
          simp only [PollStep.caught.injEq] at h
          exact Or.inl h.symm
    · rw [if_neg h1] at h
      by_cases h4 : js.status = JobStatusKind.failed
      · rw [if_pos h4] at h
        simp only [PollStep.caught.injEq] at h
        exact Or.inr (Or.inl h.symm)
      · rw [if_neg h4] at h
        simp at h

/-- C8: `pollJobUntilComplete` is a total function of the first
`maxAttempts` (default 150 in the TypeScript) poll responses — so the loop
performs at most `maxAttempts` polling iterations and always terminates;
it returns a roadmap id only when some poll within the bound reports status
`complete` with a truthy `roadmap_id`; otherwise it produces a
`RoadmapApiError`, whose message is the generation-failed message, the
missing-roadmap-id message, the timeout message, or the error of one of the
polls (itself a `RoadmapApiError` thrown by `getJobStatus`). -/
theorem c8_pollJob_spec (polls polls2 : Nat → Except String JobStatusResponse)
    (maxAttempts : Nat) :
    (∀ rid, pollJobUntilComplete polls maxAttempts = .ok rid →
      ∃ i, i < maxAttempts ∧ ∃ js, polls i = .ok js ∧
        js.status = JobStatusKind.complete ∧ js.roadmap_id = some rid ∧ rid ≠ 0) ∧
    ((∀ i, i < maxAttempts → polls i = polls2 i) →
      pollJobUntilComplete polls maxAttempts = pollJobUntilComplete polls2 maxAttempts) ∧
    (∀ msg, pollJobUntilComplete polls maxAttempts = .error msg →
      msg = "Roadmap generation timed out" ∨ msg = "Roadmap generation failed" ∨
        msg = "Job completed but no roadmap_id returned" ∨
        ∃ i, i < maxAttempts ∧ polls i = .error msg) := by
  refine ⟨?_, ?_, ?_⟩
  · intro rid h
    obtain ⟨i, h1, h2, h3⟩ := pollGo_ok_elim polls maxAttempts maxAttempts 0 rid h
    obtain ⟨js, hjs1, hjs2, hjs3, hjs4⟩ := pollStepOf_ret_elim _ _ h3
    exact ⟨i, by omega, js, hjs1, hjs2, hjs3, hjs4⟩
  · intro hagree
    exact pollGo_congr polls polls2 maxAttempts maxAttempts 0
      (fun i _ hi2 => hagree i (by omega))
  · intro msg h
    rcases pollGo_error_elim polls maxAttempts maxAttempts 0 msg h with h1 | ⟨i, h1, h2, h3⟩
    · exact Or.inl h1
    · rcases pollStepOf_caught_elim _ _ h3 with h4 | h4 | h4
      · exact Or.inr (Or.inr (Or.inl h4))
      · exact Or.inr (Or.inl h4)
      · exact Or.inr (Or.inr (Or.inr ⟨i, by omega, h4⟩))

/-- Witness for the polling theorem: on the concrete trace `witnessPolls`
the loop returns roadmap id 7, and the theorem recovers the completing
poll within the 150-attempt bound. -/
theorem c8_pollJob_spec_witness :
    ∃ i, i < 150 ∧ ∃ js, witnessPolls i = .ok js ∧
      js.status = JobStatusKind.complete ∧ js.roadmap_id = some 7 ∧ 7 ≠ 0 :=
  (c8_pollJob_spec witnessPolls witnessPolls 150).1 7 (by rfl)

/-! ### C9: optimistic update and revert in `markTaskComplete` -/

/-- C9 counterexample: for a week whose single task is already completed, a
failing `markTaskComplete(1, true)` re-throws but leaves the week with the
task flipped to incomplete — the revert maps `completed := !completed` over
the stale week instead of restoring the saved state, so the week is not
restored to its value before the call. -/
theorem c9_mark_task_cex :
    (markTaskCompleteHook (some cexWeek) 1 true true).2.2 = true ∧
    (markTaskCompleteHook (some cexWeek) 1 true true).2.1 ≠ some cexWeek := by
  refine ⟨rfl, fun h => ?_⟩
  have h2 := congrArg
    (fun ow => Option.map (fun w => w.daily_tasks.map (fun t => t.completed)) ow) h
  exact absurd h2 (by decide)

/-- C9 (amended): `markTaskComplete` first applies the optimistic update
(flag set, `completion_rate` recomputed) and, when the server call fails,
re-throws and reverts; the revert restores exactly the pre-call week state
provided every task matching the id had the opposite flag (the usual
toggle) and the stored `completion_rate` was consistent with the
(non-empty) task list — otherwise the blind flip of the revert does not
restore the original state, as the counterexample shows. -/
theorem c9_mark_task_restores (w : WeekDetailsDB) (taskId : Nat) (completed : Bool)
    (htask : ∀ t ∈ w.daily_tasks, t.task_id = taskId → t.completed = !completed)
    (_hne : w.daily_tasks ≠ [])
    (hrate : w.completion_rate =
      ((w.daily_tasks.filter (fun t => t.completed)).length : ℚ) /
        ((w.daily_tasks.length : Nat) : ℚ)) :
    markTaskCompleteHook (some w) taskId completed true =
      (some (weekAfterUpdate w taskId completed), some w, true) := by
  have hlist : setTaskCompleted w.daily_tasks taskId (!completed) = w.daily_tasks := by
    unfold setTaskCompleted
    have hcongr : ∀ t ∈ w.daily_tasks,
        (if t.task_id = taskId then { t with completed := !completed } else t) = t := by
      intro t ht
      by_cases hc : t.task_id = taskId
      · rw [if_pos hc]
        have hcomp := htask t ht hc
        cases t
        simp_all
      · rw [if_neg hc]
    calc w.daily_tasks.map
          (fun t => if t.task_id = taskId then { t with completed := !completed } else t)
        = w.daily_tasks.map id := List.map_congr_left hcongr
      _ = w.daily_tasks := List.map_id _
  have hweek : weekAfterUpdate w taskId (!completed) = w := by
    simp only [weekAfterUpdate, hlist]
    rw [← hrate]
  simp [markTaskCompleteHook, hweek]

/-- Witness for the amended C9 statement: on the concrete week `witWeek` a
failing completion of task 1 is re-thrown and the final state is exactly
the original week. -/
theorem c9_mark_task_restores_witness :
    markTaskCompleteHook (some witWeek) 1 true true =
      (some (weekAfterUpdate witWeek 1 true), some witWeek, true) :=
  c9_mark_task_restores witWeek 1 true (by decide) (by decide) rfl

/-! ### C5: deterministic critic selection -/

lemma criticLt_irrefl (a : CriticScores) : ¬ criticLt a a := by
  unfold criticLt
  omega

lemma criticLt_asymm (a b : CriticScores) : criticLt a b → ¬ criticLt b a := by
  unfold criticLt
  omega

lemma criticLt_shift (a b c : CriticScores) :
    ¬ criticLt a b → criticLt a c → criticLt b c := by
  unfold criticLt
  omega

lemma criticSelect_eq_none {α : Type} (score : α → CriticScores) (l : List α) :
    criticSelect score l = none ↔ l = [] := by
  cases l with
  | nil => simp [criticSelect]
  | cons a rest =>
    constructor
    · intro h
      exfalso
      simp only [criticSelect] at h
      cases hr : criticSelect score rest with
      | none =>
        simp only [hr] at h
        exact Option.noConfusion h
      | some b =>
        simp only [hr] at h
        by_cases hlt : criticLt (score a) (score b)
        · rw [if_pos hlt] at h
          exact Option.noConfusion h
        · rw [if_neg hlt] at h
          exact Option.noConfusion h
    · intro h
      exact absurd h (by simp)

lemma criticSelect_argmax {α : Type} (score : α → CriticScores) :
    ∀ (cands : List α), cands ≠ [] →
      ∃ c pre post, criticSelect score cands = some c ∧ cands = pre ++ c :: post ∧
        (∀ d ∈ cands, ¬ criticLt (score c) (score d)) ∧
        (∀ d ∈ pre, criticLt (score d) (score c)) := by
  intro cands
  induction cands with
  | nil => intro h; exact absurd rfl h
  | cons a rest ih =>
    intro _
    cases hrest : criticSelect score rest with
    | none =>
      have hnil : rest = [] := (criticSelect_eq_none score rest).mp hrest
      subst hnil
      refine ⟨a, [], [], by simp [criticSelect], rfl, ?_, by simp⟩
      intro d hd
      rw [List.mem_singleton] at hd
      subst hd
      exact criticLt_irrefl _
    | some b =>
      have hres : rest ≠ [] := by
        intro hn
        subst hn
        simp [criticSelect] at hrest
      obtain ⟨c, pre, post, hsel, heq, hmax, hpre⟩ := ih hres
      rw [hsel] at hrest
      have hcb : c = b := Option.some.inj hrest
      subst hcb
      by_cases hlt : criticLt (score a) (score c)
      · refine ⟨c, a :: pre, post, ?_, by rw [heq]; rfl, ?_, ?_⟩
        · simp only [criticSelect, hsel, if_pos hlt]
        · intro d hd
          rcases List.mem_cons.mp hd with rfl | hd2
          · exact criticLt_asymm _ _ hlt
          · exact hmax d hd2
        · intro d hd
          rcases List.mem_cons.mp hd with rfl | hd2
          · exact hlt
          · exact hpre d hd2
      · refine ⟨a, [], rest, ?_, rfl, ?_, by simp⟩
        · simp only [criticSelect, hsel, if_neg hlt]
        · intro d hd
          rcases List.mem_cons.mp hd with rfl | hd2
          · exact criticLt_irrefl _
          · intro habs
            exact hmax d hd2 (criticLt_shift _ _ _ hlt habs)

lemma criticSelect_mem {α : Type} (score : α → CriticScores) (cands : List α) (c : α)
    (h : criticSelect score cands = some c) : c ∈ cands := by
  have hne : cands ≠ [] := by
    intro hn
    subst hn
    simp [criticSelect] at h
  obtain ⟨c', pre, post, hsel, heq, _, _⟩ := criticSelect_argmax score cands hne
  rw [hsel] at h
  obtain rfl : c' = c := by simpa using h
  rw [heq]
  simp

/-- C5: `CriticAgent.select` is deterministic and, for every non-empty
candidate list with fixed scores, returns the earliest-generated candidate
among those with the lexicographically best
(total score, feasibility, coverage) vector — the highest unweighted total
score, ties preferring higher feasibility, then higher coverage, then the
earlier-generated candidate. -/
theorem c5_critic_select {α : Type} (score : α → CriticScores) (cands : List α)
    (hne : cands ≠ []) :
    ∃ c pre post, criticSelect score cands = some c ∧ cands = pre ++ c :: post ∧
      (∀ d ∈ cands, ¬ criticLt (score c) (score d)) ∧
      (∀ d ∈ pre, criticLt (score d) (score c)) :=
  criticSelect_argmax score cands hne

/-- Witness for the critic-selection theorem: of two candidates with scores
`wScoreFn`, candidate 1 has the larger total and is selected, with
candidate 0 strictly worse. -/
theorem c5_critic_select_witness :
    ∃ c pre post, criticSelect wScoreFn [0, 1] = some c ∧ [0, 1] = pre ++ c :: post ∧
      (∀ d ∈ [0, 1], ¬ criticLt (wScoreFn c) (wScoreFn d)) ∧
      (∀ d ∈ pre, criticLt (wScoreFn d) (wScoreFn c)) :=
  c5_critic_select wScoreFn [0, 1] (by decide)

/-! ### C4: deterministic ordered gap analysis -/

lemma charListLe_total : ∀ as bs : List Char,
    charListLe as bs = true ∨ charListLe bs as = true := by
  intro as
  induction as with
  | nil => intro bs; exact Or.inl rfl
  | cons a as ih =>
    intro bs
    cases bs with
    | nil => exact Or.inr rfl
    | cons b bs =>
      by_cases h1 : a.toNat < b.toNat
      · exact Or.inl (by simp [charListLe, h1])
      · by_cases h2 : b.toNat < a.toNat
        · exact Or.inr (by simp [charListLe, h2])
        · rcases ih bs with h3 | h3
          · exact Or.inl (by simp [charListLe, h1, h2, h3])
          · exact Or.inr (by simp [charListLe, h1, h2, h3])

lemma charListLe_trans : ∀ as bs cs : List Char,
    charListLe as bs = true → charListLe bs cs = true → charListLe as cs = true := by
  intro as
  induction as with
  | nil => intro bs cs _ _; rfl
  | cons a as ih =>
    intro bs cs hab hbc
    cases bs with
    | nil => simp [charListLe] at hab
    | cons b bs =>
      cases cs with
      | nil => simp [charListLe] at hbc
      | cons c cs =>
        simp only [charListLe] at hab hbc ⊢
        by_cases h1 : a.toNat < b.toNat
        · by_cases h2 : b.toNat < c.toNat
          · have h5 : a.toNat < c.toNat := by omega
            simp [h5]
          · rw [if_neg h2] at hbc
            by_cases h3 : c.toNat < b.toNat
            · rw [if_pos h3] at hbc
              exact absurd hbc (by simp)
            · have h5 : a.toNat < c.toNat := by omega
              simp [h5]
        · rw [if_neg h1] at hab
          by_cases h4 : b.toNat < a.toNat
          · rw [if_pos h4] at hab
            exact absurd hab (by simp)
          · rw [if_neg h4] at hab
            by_cases h2 : b.toNat < c.toNat
            · have h5 : a.toNat < c.toNat := by omega
              simp [h5]
            · rw [if_neg h2] at hbc
              by_cases h3 : c.toNat < b.toNat
              · rw [if_pos h3] at hbc
                exact absurd hbc (by simp)
              · rw [if_neg h3] at hbc
                have h5 : ¬ a.toNat < c.toNat := by omega
                have h6 : ¬ c.toNat < a.toNat := by omega
                rw [if_neg h5, if_neg h6]
                exact ih bs cs hab hbc

instance gapLETotal (role : RoleDefinition) : IsTotal Gap (gapLE role) := by
  constructor
  intro a b
  unfold gapLE
  rcases Nat.lt_trichotomy (prereqPos role a.skill) (prereqPos role b.skill) with h | h | h
  · exact Or.inl (Or.inl h)
  · rcases Nat.lt_trichotomy (gapDelta a) (gapDelta b) with h2 | h2 | h2
    · exact Or.inr (Or.inr ⟨h.symm, Or.inl h2⟩)
    · rcases charListLe_total a.skill.data b.skill.data with h3 | h3
      · exact Or.inl (Or.inr ⟨h, Or.inr ⟨h2, h3⟩⟩)
      · exact Or.inr (Or.inr ⟨h.symm, Or.inr ⟨h2.symm, h3⟩⟩)
    · exact Or.inl (Or.inr ⟨h, Or.inl h2⟩)
  · exact Or.inr (Or.inl h)

instance gapLETrans (role : RoleDefinition) : IsTrans Gap (gapLE role) := by
  constructor
  intro a b c hab hbc
  unfold gapLE at hab hbc ⊢
  rcases hab with h1 | ⟨h1e, h1d | ⟨h1de, h1s⟩⟩ <;>
    rcases hbc with h2 | ⟨h2e, h2d | ⟨h2de, h2s⟩⟩
  · exact Or.inl (by omega)
  · exact Or.inl (by omega)
  · exact Or.inl (by omega)
  · exact Or.inl (by omega)
  · exact Or.inr ⟨by omega, Or.inl (by omega)⟩
  · exact Or.inr ⟨by omega, Or.inl (by omega)⟩
  · exact Or.inl (by omega)
  · exact Or.inr ⟨by omega, Or.inl (by omega)⟩
  · exact Or.inr ⟨by omega, Or.inr ⟨by omega, charListLe_trans _ _ _ h1s h2s⟩⟩

lemma filterMap_mkGap_skills (hpp : Nat) (profile : UserProfile) :
    ∀ skills : List (String × Nat),
      (skills.filterMap (mkGap hpp profile)).map Gap.skill =
        (skills.filter (fun st => decide (currentLevel profile st.1 < st.2))).map
          Prod.fst := by
  intro skills
  induction skills with
  | nil => rfl
  | cons st rest ih =>
    by_cases h : currentLevel profile st.1 < st.2
    · simp [List.filterMap_cons, List.filter_cons, mkGap, h, ih]
    · simp [List.filterMap_cons, List.filter_cons, mkGap, h, ih]

/-- C4: `GapAnalyzer.analyze` is a pure function whose result is sorted by
the priority order (earlier prerequisite position first, ties by larger
delta, then lexical skill name), whose produced skills are exactly — once
each — the role skills with positive delta, and whose gap fields record the
current level (0 when absent), the target, and the hours-per-point
estimate. -/
theorem c4_gap_analyzer (hpp : Nat) (profile : UserProfile) (role : RoleDefinition) :
    List.Sorted (gapLE role) (analyze hpp profile role) ∧
    ((analyze hpp profile role).map Gap.skill).Perm
      ((role.skills.filter (fun st => decide (currentLevel profile st.1 < st.2))).map
        Prod.fst) ∧
    ∀ g ∈ analyze hpp profile role,
      (g.skill, g.target_level) ∈ role.skills ∧
      g.current_level = currentLevel profile g.skill ∧
      g.current_level < g.target_level ∧
      g.estimated_hours = hpp * (g.target_level - g.current_level) := by
  refine ⟨List.sorted_insertionSort _ _, ?_, ?_⟩
  · rw [← filterMap_mkGap_skills hpp profile role.skills]
    exact (List.perm_insertionSort (gapLE role) _).map Gap.skill
  · intro g hg
    have hmem : g ∈ role.skills.filterMap (mkGap hpp profile) :=
      (List.perm_insertionSort (gapLE role) _).mem_iff.mp hg
    rw [List.mem_filterMap] at hmem
    obtain ⟨st, hst, hmk⟩ := hmem
    simp only [mkGap] at hmk
    by_cases h : currentLevel profile st.1 < st.2
    · rw [if_pos h] at hmk
      have hg2 := Option.some.inj hmk
      subst hg2
      exact ⟨hst, rfl, h, rfl⟩
    · rw [if_neg h] at hmk
      exact Option.noConfusion hmk

/-- Witness for the gap-analysis theorem on the specification scenario:
profile `JavaScript=3, React=2` against a role requiring `JavaScript=5,
React=4, HTML=4` yields the gaps JavaScript(Δ2), React(Δ2), HTML(Δ4) in
prerequisite order, and the theorem instantiates on the first gap. -/
theorem c4_gap_analyzer_witness :
    List.Sorted (gapLE scRole) (analyze 4 scProfile scRole) ∧
    analyze 4 scProfile scRole =
      [{ skill := "JavaScript", current_level := 3, target_level := 5,
         estimated_hours := 8 },
       { skill := "React", current_level := 2, target_level := 4,
         estimated_hours := 8 },
       { skill := "HTML", current_level := 0, target_level := 4,
         estimated_hours := 16 }] ∧
    (("JavaScript", 5) ∈ scRole.skills ∧
      3 = currentLevel scProfile "JavaScript" ∧ 3 < 5 ∧ 8 = 4 * (5 - 3)) :=
  ⟨(c4_gap_analyzer 4 scProfile scRole).1, by decide,
    (c4_gap_analyzer 4 scProfile scRole).2.2
      { skill := "JavaScript", current_level := 3, target_level := 5,
        estimated_hours := 8 } (by decide)⟩

/-! ### C6: partial-failure tolerance of the PlannerAgent -/

lemma genPlanCall_ok_valid (raw : Except GenerationError LearningPlan)
    (p : LearningPlan) (h : genPlanCall raw = .ok p) : planSchemaValid p = true := by
  cases raw with
  | error e => simp [genPlanCall] at h
  | ok q =>
    simp only [genPlanCall] at h
    by_cases hv : planSchemaValid q
    · rw [if_pos hv] at h
      have hq := Except.ok.inj h
      subst hq
      exact hv
    · rw [if_neg hv] at h
      exact Except.noConfusion h

lemma mem_successes_valid (raws : List (Except GenerationError LearningPlan))
    (p : LearningPlan) (h : p ∈ successes raws) : planSchemaValid p = true := by
  unfold successes at h
  rw [List.mem_filterMap] at h
  obtain ⟨r, hr, hsucc⟩ := h
  rw [List.mem_map] at hr
  obtain ⟨r0, _, rfl⟩ := hr
  cases hcall : genPlanCall r0 with
  | ok q =>
    simp only [hcall, succOf, Option.some.injEq] at hsucc
    subst hsucc
    exact genPlanCall_ok_valid r0 q hcall
  | error e => simp [hcall, succOf] at hsucc

lemma generate_candidates_ok (raws : List (Except GenerationError LearningPlan))
    (h : successes raws ≠ []) : generate_candidates raws = .ok (successes raws) := by
  unfold generate_candidates
  rw [if_neg h]

lemma generate_candidates_all_fail (raws : List (Except GenerationError LearningPlan))
    (h : successes raws = []) :
    generate_candidates raws = .error (firstGenFailure (raws.map genPlanCall)) := by
  unfold generate_candidates
  rw [if_pos h]

lemma generate_candidates_ok_elim (raws : List (Except GenerationError LearningPlan))
    (cands : List LearningPlan) (h : generate_candidates raws = .ok cands) :
    cands = successes raws ∧ cands ≠ [] := by
  unfold generate_candidates at h
  by_cases hs : successes raws = []
  · rw [if_pos hs] at h
    exact Except.noConfusion h
  · rw [if_neg hs] at h
    have hc := Except.ok.inj h
    subst hc
    exact ⟨rfl, hs⟩

/-- C6: the PlannerAgent tolerates partial candidate failure — when at
least one of the schema-checked candidate generations succeeds, generation
yields exactly the successful candidates (in generation order); when every
generation fails, generation fails with one of the `GenerationError`s and
the whole pipeline run terminates with that propagated `GenerationError`
(no fallback plan is produced) for every catalog, résumé and supported
role. -/
theorem c6_planner_failure_tolerance
    (raws : List (Except GenerationError LearningPlan)) :
    (successes raws ≠ [] → generate_candidates raws = .ok (successes raws)) ∧
    (successes raws = [] →
      ∃ e : GenerationError, generate_candidates raws = .error e ∧
        ∀ (catalog : List (String × RoleDefinition)) (resources : List Resource)
          (profileRaw : Except GenerationError UserProfile)
          (finRaw : Except GenerationError LearningPlan)
          (resume_text target_role : String) (role : RoleDefinition),
          catalog.lookup target_role = some role →
          pipelineRun catalog resources ⟨profileRaw, raws, finRaw⟩
              resume_text target_role =
            .error (PipelineError.generation e)) := by
  constructor
  · exact generate_candidates_ok raws
  · intro hempty
    refine ⟨firstGenFailure (raws.map genPlanCall),
      generate_candidates_all_fail raws hempty, ?_⟩
    intro catalog resources profileRaw finRaw resume_text target_role role hrole
    simp [pipelineRun, hrole, generate_candidates_all_fail raws hempty]

/-- Witness for the planner theorem: with three candidate generations of
which exactly one succeeds, generation proceeds with the single surviving
candidate and the critic returns it without comparison; with three failing
generations the concrete pipeline run terminates with a propagated
`GenerationError`. -/
theorem c6_planner_failure_tolerance_witness :
    generate_candidates wRawsOneOfThree = Except.ok [wPlan] ∧
    criticSelect (criticScore wProfile [] wRole) [wPlan] = some wPlan ∧
    ∃ e, pipelineRun wCatalog wResources
        ⟨Except.ok wProfile, wRawsAllFail, Except.ok wPlan⟩ "resume" "frontend_engineer" =
      Except.error (PipelineError.generation e) := by
  refine ⟨?_, rfl, ?_⟩
  · exact ((c6_planner_failure_tolerance wRawsOneOfThree).1 (by decide)).trans (by decide)
  · obtain ⟨e, _, hp⟩ := (c6_planner_failure_tolerance wRawsAllFail).2 (by decide)
    exact ⟨e, hp wCatalog wResources (Except.ok wProfile) (Except.ok wPlan)
      "resume" "frontend_engineer" wRole (by decide)⟩

/-! ### C3: weekly invariants enforced by the ConstraintOracle -/

lemma takeBudget_sum_le (b : Nat) (ts : List DailyTask) :
    tasksMinutes (takeBudget b ts) ≤ b := by
  induction ts generalizing b with
  | nil => simp [takeBudget, tasksMinutes]
  | cons t rest ih =>
    by_cases h : t.estimated_minutes ≤ b
    · simp only [takeBudget, if_pos h, tasksMinutes, List.map_cons, List.sum_cons]
      have h2 := ih (b - t.estimated_minutes)
      simp only [tasksMinutes] at h2
      omega
    · simp [takeBudget, if_neg h, tasksMinutes]

lemma takeBudget_countP_le (p : DailyTask → Bool) (b : Nat) (ts : List DailyTask) :
    (takeBudget b ts).countP p ≤ ts.countP p := by
  induction ts generalizing b with
  | nil => simp [takeBudget]
  | cons t rest ih =>
    by_cases h : t.estimated_minutes ≤ b
    · simp only [takeBudget, if_pos h, List.countP_cons]
      have h2 := ih (b - t.estimated_minutes)
      omega
    · simp only [takeBudget, if_neg h, List.countP_nil]
      exact Nat.zero_le _

lemma capLongs_countP (ts : List DailyTask) : ∀ seen, seen ≤ 2 →
    (capLongs seen ts).1.countP isLongTask + seen ≤ 2 := by
  induction ts with
  | nil => intro seen h; simpa [capLongs] using h
  | cons t rest ih =>
    intro seen hseen
    by_cases h1 : 120 < t.estimated_minutes
    · by_cases h2 : seen < 2
      · have h3 := ih (seen + 1) (by omega)
        have hl : isLongTask t = true := by
          simp only [isLongTask, decide_eq_true_eq]
          omega
        simp [capLongs, h1, h2, List.countP_cons, hl]
        omega
      · have h3 := ih seen hseen
        have hl : isLongTask { t with estimated_minutes := 120 } = false := by
          simp [isLongTask]
        simp [capLongs, h1, h2, List.countP_cons, hl]
        omega
    · have h3 := ih seen hseen
      have hl : isLongTask t = false := by
        simp only [isLongTask, decide_eq_false_iff_not]
        omega
      simp [capLongs, h1, List.countP_cons, hl]
      omega

lemma absorbExcess_countP (ts : List DailyTask) : ∀ e,
    (absorbExcess e ts).1.countP isLongTask ≤ ts.countP isLongTask := by
  induction ts with
  | nil => intro e; simp [absorbExcess]
  | cons t rest ih =>
    intro e
    by_cases h : t.estimated_minutes ≤ 120
    · have h2 : isLongTask
          { t with estimated_minutes :=
              t.estimated_minutes + min e (120 - t.estimated_minutes) } = false := by
        simp only [isLongTask, decide_eq_false_iff_not]
        omega
      have h3 : isLongTask t = false := by
        simp only [isLongTask, decide_eq_false_iff_not]
        omega
      have h4 := ih (e - min e (120 - t.estimated_minutes))
      simp [absorbExcess, h, List.countP_cons, h2, h3]
      omega
    · have h4 := ih e
      simp [absorbExcess, h, List.countP_cons]
      omega

lemma enforceWeek_ok (resources : List Resource) (budget : Nat) (w w' : WeeklyPlan)
    (log : List String) (h : enforceWeek resources budget w = .ok (w', log)) :
    w'.week_index = w.week_index ∧
    w'.daily.countP isLongTask ≤ 2 ∧
    weekMinutes w' ≤ budget := by
  simp only [enforceWeek] at h
  split at h
  · exact Except.noConfusion h
  · split at h
    · exact Except.noConfusion h
    · split at h
      · exact Except.noConfusion h
      · have hp := Except.ok.inj h
        have hw := congrArg Prod.fst hp
        simp only at hw
        subst hw
        refine ⟨rfl, ?_, ?_⟩
        · have hcap := capLongs_countP (w.daily.filter (taskWhitelisted resources)) 0
            (by omega)
          calc (takeBudget budget
                  (absorbExcess
                    (capLongs 0 (w.daily.filter (taskWhitelisted resources))).2
                    (capLongs 0 (w.daily.filter (taskWhitelisted resources))).1).1).countP
                  isLongTask
              ≤ (absorbExcess
                    (capLongs 0 (w.daily.filter (taskWhitelisted resources))).2
                    (capLongs 0 (w.daily.filter (taskWhitelisted resources))).1).1.countP
                  isLongTask := takeBudget_countP_le _ _ _
            _ ≤ (capLongs 0 (w.daily.filter (taskWhitelisted resources))).1.countP
                  isLongTask := absorbExcess_countP _ _
            _ ≤ 2 := by omega
        · exact takeBudget_sum_le _ _

lemma enforceWeeks_ok (resources : List Resource) (budget : Nat) :
    ∀ (ws ws' : List WeeklyPlan) (logs : List String),
      enforceWeeks resources budget ws = .ok (ws', logs) →
      ws'.map WeeklyPlan.week_index = ws.map WeeklyPlan.week_index ∧
      ∀ w ∈ ws', w.daily.countP isLongTask ≤ 2 ∧ weekMinutes w ≤ budget := by
  intro ws
  induction ws with
  | nil =>
    intro ws' logs h
    simp only [enforceWeeks] at h
    have hp := Except.ok.inj h
    have hw := congrArg Prod.fst hp
    simp only at hw
    subst hw
    exact ⟨rfl, by simp⟩
  | cons w rest ih =>
    intro ws' logs h
    simp only [enforceWeeks] at h
    cases h1 : enforceWeek resources budget w with
    | error v =>
      simp only [h1] at h
      exact Except.noConfusion h
    | ok pr =>
      obtain ⟨w1, log1⟩ := pr
      simp only [h1] at h
      cases h2 : enforceWeeks resources budget rest with
      | error v =>
        simp only [h2] at h
        exact Except.noConfusion h
      | ok pr2 =>
        obtain ⟨ws2, logs2⟩ := pr2
        simp only [h2] at h
        have hp := Except.ok.inj h
        have hw := congrArg Prod.fst hp
        simp only at hw
        subst hw
        obtain ⟨hidx, hall⟩ := ih ws2 logs2 h2
        obtain ⟨hi1, hc1, hm1⟩ := enforceWeek_ok resources budget w w1 log1 h1
        refine ⟨by simp [List.map_cons, hi1, hidx], ?_⟩
        intro x hx
        rcases List.mem_cons.mp hx with rfl | hx2
        · exact ⟨hc1, hm1⟩
        · exact hall x hx2

lemma enforce_ok (resources : List Resource) (profile : UserProfile)
    (plan p' : LearningPlan) (log : List String)
    (h : enforce resources profile plan = .ok (p', log)) :
    p'.weeks.map WeeklyPlan.week_index = plan.weeks.map WeeklyPlan.week_index ∧
    ∀ w ∈ p'.weeks, w.daily.countP isLongTask ≤ 2 ∧
      weekMinutes w ≤ profile.time_budget_hours_per_week * 60 := by
  simp only [enforce] at h
  cases h1 : enforceWeeks resources (profile.time_budget_hours_per_week * 60)
      plan.weeks with
  | error v =>
    simp only [h1] at h
    exact Except.noConfusion h
  | ok pr =>
    obtain ⟨ws, logs⟩ := pr
    simp only [h1] at h
    have hp := Except.ok.inj h
    have hw := congrArg Prod.fst hp
    simp only at hw
    subst hw
    exact enforceWeeks_ok resources _ plan.weeks ws logs h1

/-- C3: every plan returned by `ConstraintOracle.enforce` satisfies, for
every week, that at most two daily tasks exceed 120 estimated minutes and
that the week's total estimated minutes are at most
`profile.time_budget_hours_per_week * 60`. -/
theorem c3_oracle_week_invariants (resources : List Resource) (profile : UserProfile)
    (plan p' : LearningPlan) (log : List String)
    (h : enforce resources profile plan = .ok (p', log)) :
    ∀ w ∈ p'.weeks, w.daily.countP isLongTask ≤ 2 ∧
      weekMinutes w ≤ profile.time_budget_hours_per_week * 60 :=
  (enforce_ok resources profile plan p' log h).2

/-- Witness for the oracle theorem: the concrete compliant plan passes
enforcement unchanged with an empty repair log, and its first week
satisfies both bounds. -/
theorem c3_oracle_week_invariants_witness :
    (wWeek 1).daily.countP isLongTask ≤ 2 ∧
    weekMinutes (wWeek 1) ≤ wProfile.time_budget_hours_per_week * 60 :=
  c3_oracle_week_invariants wResources wProfile wPlan wPlan [] (by decide)
    (wWeek 1) (by decide)

/-! ### C7: frame of the Finalizer -/

lemma finalizeChoice_structural (plan g : LearningPlan) :
    structuralFields (finalizeChoice plan g) = structuralFields plan := by
  unfold finalizeChoice
  by_cases h : structuralFields g = structuralFields plan
  · rw [if_pos h]
    exact h
  · rw [if_neg h]
    rfl

lemma finalizeChoice_keep (plan g : LearningPlan)
    (h : structuralFields g = structuralFields plan) : finalizeChoice plan g = g := by
  unfold finalizeChoice
  rw [if_pos h]

lemma finalizeChoice_drift (plan g : LearningPlan)
    (h : structuralFields g ≠ structuralFields plan) :
    finalizeChoice plan g = emptyCoaching plan := by
  unfold finalizeChoice
  rw [if_neg h]

lemma personalize_ok_elim (plan : LearningPlan)
    (raw : Except GenerationError LearningPlan) (q : LearningPlan)
    (h : personalize plan raw = .ok q) :
    planSchemaValid q = true ∨ q.weeks = plan.weeks := by
  simp only [personalize] at h
  cases hc : genPlanCall raw with
  | error e =>
    simp only [hc] at h
    exact Except.noConfusion h
  | ok g =>
    simp only [hc] at h
    have hq := Except.ok.inj h
    subst hq
    by_cases hs : structuralFields g = structuralFields plan
    · rw [finalizeChoice_keep plan g hs]
      exact Or.inl (genPlanCall_ok_valid raw g hc)
    · rw [finalizeChoice_drift plan g hs]
      exact Or.inr rfl

/-- C7 counterexample: a schema-valid generative output that matches the
input plan on every diffed structural field (week count, task
descriptions, resource references) but changes a session length passes the
drift check and is returned, so the Finalizer output differs from the
input plan although coaching tips and checkpoints are unchanged — the
output does not differ only in coaching_tips and checkpoint reflection
prompts. -/
theorem c7_finalizer_cex :
    finalizeChoice wPlan wPlanDriftMinutes = wPlanDriftMinutes ∧
    wPlanDriftMinutes ≠ wPlan ∧
    wPlanDriftMinutes.coaching_tips = wPlan.coaching_tips ∧
    wPlanDriftMinutes.checkpoints = wPlan.checkpoints := by
  decide

/-- C7 (amended): the Finalizer never alters the diffed structural fields —
week count, task descriptions and resource references are always those of
the input plan; on any drift in those fields the generative output is
discarded and the unmodified input plan with empty default coaching text is
returned; and the output is always either the generative output or that
fallback.  Fields outside the diffed set (for example session lengths) are
not protected, as the counterexample shows. -/
theorem c7_finalizer_frame (plan genOut : LearningPlan) :
    structuralFields (finalizeChoice plan genOut) = structuralFields plan ∧
    (structuralFields genOut ≠ structuralFields plan →
      finalizeChoice plan genOut = emptyCoaching plan) ∧
    (finalizeChoice plan genOut = genOut ∨
      finalizeChoice plan genOut = emptyCoaching plan) := by
  refine ⟨finalizeChoice_structural plan genOut, finalizeChoice_drift plan genOut, ?_⟩
  by_cases h : structuralFields genOut = structuralFields plan
  · exact Or.inl (finalizeChoice_keep plan genOut h)
  · exact Or.inr (finalizeChoice_drift plan genOut h)

/-- Witness for the Finalizer frame theorem: a generative output with a
changed task description is discarded and the input plan with empty
coaching is kept, preserving the structural fields. -/
theorem c7_finalizer_frame_witness :
    structuralFields (finalizeChoice wPlan wPlanDriftText) = structuralFields wPlan ∧
    finalizeChoice wPlan wPlanDriftText = emptyCoaching wPlan :=
  ⟨(c7_finalizer_frame wPlan wPlanDriftText).1,
   (c7_finalizer_frame wPlan wPlanDriftText).2.1 (by decide)⟩

/-! ### C1: twelve weeks with indices 1..12 -/

lemma schemaValid_weeks (p : LearningPlan) (h : planSchemaValid p = true) :
    p.weeks.length = 12 ∧
    (p.weeks.map WeeklyPlan.week_index).Perm (List.range' 1 12) := by
  simp only [planSchemaValid, Bool.and_eq_true, beq_iff_eq, List.all_eq_true] at h
  obtain ⟨hlen, hall⟩ := h
  refine ⟨hlen, ?_⟩
  have hsub : List.range' 1 12 ⊆ p.weeks.map WeeklyPlan.week_index := by
    intro i hi
    have h2 := hall i hi
    rw [List.any_eq_true] at h2
    obtain ⟨w, hw, hweq⟩ := h2
    exact List.mem_map.mpr ⟨w, hw, by rwa [beq_iff_eq] at hweq⟩
  have hsp := List.subperm_of_subset (List.nodup_range' 1 12) hsub
  obtain ⟨l, hl1, hl2⟩ := hsp
  have heq : l = p.weeks.map WeeklyPlan.week_index := by
    apply hl2.eq_of_length
    rw [hl1.length_eq]
    simp [List.length_range', hlen]
  rw [← heq]
  exact hl1

/-- C1: every `LearningPlan` returned by a pipeline run has exactly 12
weeks whose `week_index` values are a permutation of 1..12 (no gaps, no
duplicates): schema validation guarantees it for every surviving planner
candidate, the ConstraintOracle only rewrites the daily tasks inside each
week, and the Finalizer returns either a schema-valid output or a plan
with the repaired candidate's weeks.  The roadmap screen likewise builds
its visualization weeks as indices 1..duration, which for the 12-week
roadmaps is exactly 1..12. -/
theorem c1_generated_plan_weeks (catalog : List (String × RoleDefinition))
    (resources : List Resource) (env : GenEnv) (resume_text target_role : String)
    (plan : LearningPlan)
    (h : pipelineRun catalog resources env resume_text target_role = .ok plan) :
    plan.weeks.length = 12 ∧
    (plan.weeks.map WeeklyPlan.week_index).Perm (List.range' 1 12) ∧
    roadmapVizWeekIndices 12 = List.range' 1 12 := by
  simp only [pipelineRun] at h
  cases hrole : catalog.lookup target_role with
  | none =>
    simp only [hrole] at h
    exact Except.noConfusion h
  | some role =>
    simp only [hrole] at h
    cases hcands : generate_candidates env.plannerRaws with
    | error e =>
      simp only [hcands] at h
      exact Except.noConfusion h
    | ok cands =>
      simp only [hcands] at h
      cases hsel : criticSelect
          (criticScore (profileExtract resume_text env.profileRaw)
            (analyze gapHoursPerPoint (profileExtract resume_text env.profileRaw) role)
            role) cands with
      | none =>
        simp only [hsel] at h
        exact Except.noConfusion h
      | some best =>
        simp only [hsel] at h
        cases henf : enforce resources (profileExtract resume_text env.profileRaw)
            best with
        | error v =>
          simp only [henf] at h
          exact Except.noConfusion h
        | ok pr =>
          obtain ⟨repaired, rlog⟩ := pr
          simp only [henf] at h
          cases hfin : personalize repaired env.finalizerRaw with
          | error e =>
            simp only [hfin] at h
            exact Except.noConfusion h
          | ok q =>
            simp only [hfin] at h
            have hq := Except.ok.inj h
            subst hq
            have hbest : best ∈ cands := criticSelect_mem _ cands best hsel
            obtain ⟨hcs, _⟩ := generate_candidates_ok_elim env.plannerRaws cands hcands
            have hvalid : planSchemaValid best = true :=
              mem_successes_valid env.plannerRaws best (hcs ▸ hbest)
            obtain ⟨hidx, _⟩ := enforce_ok resources
              (profileExtract resume_text env.profileRaw) best repaired rlog henf
            rcases personalize_ok_elim repaired env.finalizerRaw q hfin with hv | hw
            · obtain ⟨hl, hperm⟩ := schemaValid_weeks q hv
              exact ⟨hl, hperm, by decide⟩
            · obtain ⟨hl, hperm⟩ := schemaValid_weeks best hvalid
              have hmap : q.weeks.map WeeklyPlan.week_index =
                  best.weeks.map WeeklyPlan.week_index := by
                rw [hw, hidx]
              have hlen : q.weeks.length = best.weeks.length := by
                have h3 := congrArg List.length hmap
                simpa using h3
              refine ⟨by rw [hlen, hl], ?_, by decide⟩
              rw [hmap]
              exact hperm

/-- Witness for the twelve-week theorem on a concrete successful pipeline
run. -/
theorem c1_generated_plan_weeks_witness :
    wPlanCoached.weeks.length = 12 ∧
    (wPlanCoached.weeks.map WeeklyPlan.week_index).Perm (List.range' 1 12) ∧
    roadmapVizWeekIndices 12 = List.range' 1 12 :=
  c1_generated_plan_weeks wCatalog wResources wEnv "resume text" "frontend_engineer"
    wPlanCoached (by decide)

/-! ### C2: the pipeline entrypoint -/

/-- C2: the pipeline exposes the entrypoint
`run(resume_text, target_role)`, a pure function of the request and the
generative environment — synchronous from the caller's perspective — and
whenever the supported role resolves and every stage succeeds, the single
call returns exactly the finalized `LearningPlan` to the caller. -/
theorem c2_pipeline_entrypoint (catalog : List (String × RoleDefinition))
    (resources : List Resource) (env : GenEnv) (resume_text target_role : String)
    (role : RoleDefinition) (cands : List LearningPlan)
    (best repaired finalPlan : LearningPlan) (rlog : List String)
    (hrole : catalog.lookup target_role = some role)
    (hcands : generate_candidates env.plannerRaws = .ok cands)
    (hsel : criticSelect
        (criticScore (profileExtract resume_text env.profileRaw)
          (analyze gapHoursPerPoint (profileExtract resume_text env.profileRaw) role)
          role) cands = some best)
    (henf : enforce resources (profileExtract resume_text env.profileRaw) best =
      .ok (repaired, rlog))
    (hfin : personalize repaired env.finalizerRaw = .ok finalPlan) :
    pipelineRun catalog resources env resume_text target_role = .ok finalPlan := by
  simp only [pipelineRun, hrole, hcands, hsel, henf, hfin]

/-- Witness for the entrypoint theorem: a concrete end-to-end run in which
every stage succeeds returns the finalized coached plan. -/
theorem c2_pipeline_entrypoint_witness :
    pipelineRun wCatalog wResources wEnv "resume text" "frontend_engineer" =
      Except.ok wPlanCoached :=
  c2_pipeline_entrypoint wCatalog wResources wEnv "resume text" "frontend_engineer"
    wRole [wPlan] wPlan wPlan wPlanCoached [] (by decide) (by decide) (by decide)
    (by decide) (by decide)
